import Mathlib

/-!
Shallow embedding of the Pako consensus core (files `src/consensus/src/aggregator.rs`,
`src/consensus/src/messages.rs`, `src/consensus/src/core.rs`) together with theorems
settling the specification claims about the aggregator, message validation, digests,
leader election and the halt-mark bookkeeping.

Cryptographic primitives (SHA-512 truncation, ed25519 signatures, threshold-crypto
signatures and shares) are modelled abstractly: the hash is an arbitrary function from
byte sequences to digests, and signature checks are arbitrary boolean oracles.  All
claims proved here hold for every instantiation of these parameters, and all
counterexamples instantiate them concretely.
-/

namespace Pako

/-- Public keys are modelled by naturals standing for the 32-byte `PublicKey` arrays;
the byte-wise lexicographic order Rust uses to sort keys coincides with the numeric
order of their big-endian values. -/
abbrev PublicKey := Nat

abbrev EpochNumber := Nat

abbrev ViewNumber := Nat

abbrev Stake := Nat

/-- A 32-byte content digest, modelled by its big-endian numeric value. -/
abbrev DigestNat := Nat

/-- Byte strings: each entry stands for one byte. -/
abbrev Bytes := List Nat

/-- The model of the SHA-512/256 digest computation: an arbitrary function from the
hashed byte sequence to a digest value.  Theorems quantify over it. -/
abbrev HashFun := Bytes → DigestNat

/-- Little-endian fixed-width byte rendering, as produced by Rust `to_le_bytes`. -/
def natLEBytes : Nat → Nat → Bytes
  | 0, _ => []
  | w + 1, n => n % 256 :: natLEBytes w (n / 256)

/-- `u64::to_le_bytes`, used for epoch and view numbers in digest computations. -/
def leBytes8 (n : Nat) : Bytes := natLEBytes 8 n

/-- Big-endian fixed-width byte rendering (byte arrays compare lexicographically,
matching numeric comparison of the represented value). -/
def natBEBytes (w n : Nat) : Bytes := (natLEBytes w n).reverse

/-- The 32 bytes of a public key (`pk.0`), fed to the hasher. -/
def pkBytes (pk : PublicKey) : Bytes := natBEBytes 32 pk

/-- The 32 bytes of a payload digest, fed to the hasher. -/
def digestBytes (d : DigestNat) : Bytes := natBEBytes 32 d

/-- ASCII bytes of a string literal fed to the hasher (for example "RANDOMNESS_SHARE"). -/
def strBytes (s : String) : Bytes := s.toList.map Char.toNat

/-- `usize::from_be_bytes` applied to the first eight bytes of a byte string, as in
`RandomCoin::verify` and `Core::handle_randommess_share`. -/
def beBytes8ToNat (bytes : Bytes) : Nat :=
  (bytes.take 8).foldl (fun acc b => acc * 256 + b) 0

/-- Modelled from the spec: the `Committee` type lives in `crate::config`, which is not
part of the sources; per the spec it maps each authority's public key to its stake
(and threshold-share index).  The authority list is keyed by public key. -/
structure Committee where
  authorities : List (PublicKey × Stake)
  deriving DecidableEq

/-- Modelled from the spec: `committee.stake(&pk)` returns the authority's stake, zero
for unknown authorities. -/
def Committee.stake (c : Committee) (pk : PublicKey) : Stake :=
  (c.authorities.lookup pk).getD 0

/-- `committee.authorities.contains_key(pk)` (used by `CommitVector::verify`). -/
def Committee.containsKey (c : Committee) (pk : PublicKey) : Bool :=
  (c.authorities.lookup pk).isSome

/-- `committee.size()`: the number of authorities. -/
def Committee.size (c : Committee) : Nat := c.authorities.length

/-- Total stake of the committee. -/
def Committee.totalStake (c : Committee) : Nat := (c.authorities.map Prod.snd).sum

/-- Modelled from the spec: quorum threshold ⌈(2·total_stake+1)/3⌉ (2f+1 for unit
stakes), from `crate::config` which is absent from the sources. -/
def Committee.quorumThreshold (c : Committee) : Nat := (2 * c.totalStake + 3) / 3

/-- Modelled from the spec: random-coin threshold ⌈(total_stake+1)/3⌉ (f+1 for unit
stakes), from `crate::config` which is absent from the sources. -/
def Committee.randomCoinThreshold (c : Committee) : Nat := (c.totalStake + 3) / 3

/-- `committee.authorities.keys().cloned().collect()` followed by `keys.sort()`. -/
def Committee.sortedKeys (c : Committee) : List PublicKey :=
  List.insertionSort (fun a b => a ≤ b) (c.authorities.map Prod.fst)

/-- The error kinds of `crate::error::ConsensusError` reachable from the embedded
validation code (the error module itself is not under the sources; constructor names
and payloads follow their uses in `messages.rs` and `aggregator.rs`). -/
inductive ConsensusError where
  | MessageWithHaltedEpoch (epoch next : EpochNumber)
  | UnknownAuthority (pk : PublicKey)
  | InvalidSignature (pk : PublicKey)
  | InvalidSignatureShare (pk : PublicKey)
  | InvalidThresholdSignature (pk : PublicKey)
  | AuthorityReuseinQC (pk : PublicKey)
  | InvalidCommitVector (pk : PublicKey)
  | RandomCoinWithWrongLeader
  | WrongLeader (digest : DigestNat) (leader author : PublicKey) (epoch : EpochNumber)
  deriving DecidableEq

instance {ε α : Type} [DecidableEq ε] [DecidableEq α] : DecidableEq (Except ε α) :=
  fun x y =>
    match x, y with
    | .ok a, .ok b =>
      if h : a = b then .isTrue (by rw [h]) else .isFalse (by simp [h])
    | .error a, .error b =>
      if h : a = b then .isTrue (by rw [h]) else .isFalse (by simp [h])
    | .ok _, .error _ => .isFalse (by simp)
    | .error _, .ok _ => .isFalse (by simp)

/-- Boolean oracles standing for the cryptographic checks: ordinary signature
verification against a digest and a public key, threshold signature-share
verification against the share holder's key share, and combined threshold-signature
verification against the committee's threshold public key. -/
structure CryptoOracle where
  sigVerify : Nat → DigestNat → PublicKey → Bool
  shareVerify : PublicKey → Nat → DigestNat → Bool
  thVerify : Bytes → DigestNat → Bool

/-- `messages.rs` `Block`: payload digests, author, signature, epoch and the optional
threshold-signature proof (`Sigma = Option<threshold_crypto::Signature>`). -/
structure Block where
  payload : List DigestNat
  author : PublicKey
  signature : Nat
  epoch : EpochNumber
  proof : Option Bytes
  deriving DecidableEq

/-- `messages.rs` `CommitVector`. -/
structure CommitVector where
  epoch : EpochNumber
  author : PublicKey
  signature : Nat
  received : List PublicKey
  proof : Option Bytes
  deriving DecidableEq

/-- `messages.rs` `PBPhase`. -/
inductive PBPhase where
  | Phase1
  | Phase2
  deriving DecidableEq

/-- `messages.rs` `Echo`. -/
structure Echo where
  digest : DigestNat
  digest_author : PublicKey
  phase : PBPhase
  epoch : EpochNumber
  author : PublicKey
  signature_share : Nat
  deriving DecidableEq

/-- `messages.rs` `RandomnessShare`. -/
structure RandomnessShare where
  epoch : EpochNumber
  view : ViewNumber
  author : PublicKey
  signature_share : Nat
  deriving DecidableEq

/-- `messages.rs` `RandomCoin`; the combined threshold signature is kept as its byte
string since `verify` inspects its first eight bytes. -/
structure RandomCoin where
  author : PublicKey
  epoch : EpochNumber
  view : ViewNumber
  leader : PublicKey
  threshold_sig : Bytes
  deriving DecidableEq

/-- `messages.rs` `Done`. -/
structure Done where
  author : PublicKey
  coin : RandomCoin
  proof : Option Bytes
  deriving DecidableEq

/-- `messages.rs` `Halt`. -/
structure Halt where
  block : Block
  author : PublicKey
  deriving DecidableEq

/-- `messages.rs` `Val`. -/
inductive Val where
  | Block (b : Block)
  | CommitVector (cv : CommitVector)
  deriving DecidableEq

/-- `messages.rs` `Finish(pub Val)`. -/
structure Finish where
  val : Val
  deriving DecidableEq

/-- `messages.rs` `ConsensusMessage`. -/
inductive ConsensusMessage where
  | Val (v : Val)
  | Echo (e : Echo)
  | Finish (f : Finish)
  | Halt (h : Halt)
  | RandomnessShare (s : RandomnessShare)
  | RandomCoin (c : RandomCoin)
  | Done (d : Done)
  deriving DecidableEq

/-- The proof-presence byte hashed by `Block` and `CommitVector` digests. -/
def presenceByte (p : Option Bytes) : Nat :=
  match p with
  | some _ => 1
  | none => 0

/-- The byte sequence hashed by `impl Hash for Block::digest`: author key bytes, epoch
little-endian bytes, each payload digest, then the proof-presence byte. -/
def blockDigestInput (b : Block) : Bytes :=
  pkBytes b.author ++ leBytes8 b.epoch ++ (b.payload.map digestBytes).flatten
    ++ [presenceByte b.proof]

/-- `Block::digest`. -/
def Block.digest (h : HashFun) (b : Block) : DigestNat := h (blockDigestInput b)

/-- The byte sequence hashed by `impl Hash for CommitVector::digest`: epoch bytes,
author key bytes, the proof-presence byte, then the received keys sorted by their
byte arrays (`tuples.sort_by_key(|e| e.0)`). -/
def cvDigestInput (cv : CommitVector) : Bytes :=
  leBytes8 cv.epoch ++ pkBytes cv.author ++ [presenceByte cv.proof]
    ++ ((List.insertionSort (fun a b => a ≤ b) cv.received).map pkBytes).flatten

/-- `CommitVector::digest`. -/
def CommitVector.digest (h : HashFun) (cv : CommitVector) : DigestNat :=
  h (cvDigestInput cv)

/-- `RandomnessShare::digest`: H(epoch, view, "RANDOMNESS_SHARE"). -/
def RandomnessShare.digest (h : HashFun) (s : RandomnessShare) : DigestNat :=
  h (leBytes8 s.epoch ++ leBytes8 s.view ++ strBytes "RANDOMNESS_SHARE")

/-- `Done::digest`: H(coin.epoch, coin.view, "DONE"). -/
def Done.digest (h : HashFun) (d : Done) : DigestNat :=
  h (leBytes8 d.coin.epoch ++ leBytes8 d.coin.view ++ strBytes "DONE")

/-- The epoch-liveness condition shared by all verifiers:
`epoch > halt_mark && !epochs_halted.contains(&epoch)`. -/
def epochLive (epoch haltMark : EpochNumber) (epochsHalted : Finset EpochNumber) : Prop :=
  haltMark < epoch ∧ epoch ∉ epochsHalted

instance (epoch haltMark : EpochNumber) (epochsHalted : Finset EpochNumber) :
    Decidable (epochLive epoch haltMark epochsHalted) := by
  unfold epochLive; infer_instance

/-- `Block::check_sigma`: the proof, when present, verifies as a threshold signature
over the block's digest; absent proof fails. -/
def Block.check_sigma (h : HashFun) (o : CryptoOracle) (b : Block) : Bool :=
  match b.proof with
  | some sigma => o.thVerify sigma (b.digest h)
  | none => false

/-- `Block::verify` (messages.rs lines 110-133): halted-epoch check, author-stake
check, then the ordinary signature check over the digest. -/
def Block.verify (b : Block) (h : HashFun) (o : CryptoOracle) (committee : Committee)
    (haltMark : EpochNumber) (epochsHalted : Finset EpochNumber) :
    Except ConsensusError Unit :=
  if ¬ epochLive b.epoch haltMark epochsHalted then
    .error (.MessageWithHaltedEpoch b.epoch (haltMark + 1))
  else if ¬ 0 < committee.stake b.author then
    .error (.UnknownAuthority b.author)
  else if ¬ o.sigVerify b.signature (b.digest h) b.author then
    .error (.InvalidSignature b.author)
  else
    .ok ()

/-- The distinct-committee-member count of `CommitVector::verify`: a fold over
`received` counting entries that are committee keys not seen before. -/
def distinctCommitteeCount (committee : Committee) (received : List PublicKey) : Nat :=
  (received.foldl
    (fun acc pk =>
      if committee.containsKey pk ∧ pk ∉ acc.2 then (acc.1 + 1, pk :: acc.2) else acc)
    ((0 : Nat), ([] : List PublicKey))).1

/-- `CommitVector::verify` (messages.rs lines 208-245): halted-epoch check,
author-stake check, signature check, then the quorum count of distinct committee
members among `received`. -/
def CommitVector.verify (cv : CommitVector) (h : HashFun) (o : CryptoOracle)
    (committee : Committee) (haltMark : EpochNumber)
    (epochsHalted : Finset EpochNumber) : Except ConsensusError Unit :=
  if ¬ epochLive cv.epoch haltMark epochsHalted then
    .error (.MessageWithHaltedEpoch cv.epoch (haltMark + 1))
  else if ¬ 0 < committee.stake cv.author then
    .error (.UnknownAuthority cv.author)
  else if ¬ o.sigVerify cv.signature (cv.digest h) cv.author then
    .error (.InvalidSignature cv.author)
  else if ¬ committee.quorumThreshold ≤ distinctCommitteeCount committee cv.received then
    .error (.InvalidCommitVector cv.author)
  else
    .ok ()

/-- `Echo::verify`: halted-epoch check, digest-author check against the expected
author, author-stake check, then the signature-share check over the carried block
digest. -/
def Echo.verify (e : Echo) (o : CryptoOracle) (committee : Committee)
    (digestAuthor : PublicKey) (haltMark : EpochNumber)
    (epochsHalted : Finset EpochNumber) : Except ConsensusError Unit :=
  if ¬ epochLive e.epoch haltMark epochsHalted then
    .error (.MessageWithHaltedEpoch e.epoch (haltMark + 1))
  else if ¬ e.digest_author = digestAuthor then
    .error (.WrongLeader e.digest e.digest_author digestAuthor e.epoch)
  else if ¬ 0 < committee.stake e.author then
    .error (.UnknownAuthority e.author)
  else if ¬ o.shareVerify e.author e.signature_share e.digest then
    .error (.InvalidSignatureShare e.author)
  else
    .ok ()

/-- `RandomnessShare::verify`: halted-epoch check, author-stake check, then the
signature-share check over the share's digest. -/
def RandomnessShare.verify (s : RandomnessShare) (h : HashFun) (o : CryptoOracle)
    (committee : Committee) (haltMark : EpochNumber)
    (epochsHalted : Finset EpochNumber) : Except ConsensusError Unit :=
  if ¬ epochLive s.epoch haltMark epochsHalted then
    .error (.MessageWithHaltedEpoch s.epoch (haltMark + 1))
  else if ¬ 0 < committee.stake s.author then
    .error (.UnknownAuthority s.author)
  else if ¬ o.shareVerify s.author s.signature_share (s.digest h) then
    .error (.InvalidSignatureShare s.author)
  else
    .ok ()

/-- The leader derivation of `RandomCoin::verify` (messages.rs lines 531-536):
index = big-endian value of the first eight signature bytes, modulo the committee
size, into the sorted key list. -/
def coinLeaderOfSig (committee : Committee) (sig : Bytes) : PublicKey :=
  (committee.sortedKeys).getD (beBytes8ToNat sig % committee.size) 0

/-- `RandomCoin::verify` (messages.rs lines 507-543): halted-epoch check, threshold
signature check over H(epoch, view, "RANDOMNESS_SHARE"), then the leader check.
There is no author-stake check. -/
def RandomCoin.verify (rc : RandomCoin) (h : HashFun) (o : CryptoOracle)
    (committee : Committee) (haltMark : EpochNumber)
    (epochsHalted : Finset EpochNumber) : Except ConsensusError Unit :=
  if ¬ epochLive rc.epoch haltMark epochsHalted then
    .error (.MessageWithHaltedEpoch rc.epoch (haltMark + 1))
  else if ¬ o.thVerify rc.threshold_sig
      (h (leBytes8 rc.epoch ++ leBytes8 rc.view ++ strBytes "RANDOMNESS_SHARE")) then
    .error (.InvalidThresholdSignature rc.author)
  else if ¬ coinLeaderOfSig committee rc.threshold_sig = rc.leader then
    .error .RandomCoinWithWrongLeader
  else
    .ok ()

/-- `Done::verify` (messages.rs lines 574-590): author-stake check first, then the
embedded coin's full verification (which performs the halted-epoch check on the
coin's epoch). -/
def Done.verify (d : Done) (h : HashFun) (o : CryptoOracle) (committee : Committee)
    (haltMark : EpochNumber) (epochsHalted : Finset EpochNumber) :
    Except ConsensusError Unit :=
  if ¬ 0 < committee.stake d.author then
    .error (.UnknownAuthority d.author)
  else
    d.coin.verify h o committee haltMark epochsHalted

/-- `Halt::verify` (messages.rs lines 633-653): author-stake check, inner block
verification (which performs the halted-epoch check on the block's epoch), then the
block's threshold proof check. -/
def Halt.verify (ht : Halt) (h : HashFun) (o : CryptoOracle) (committee : Committee)
    (haltMark : EpochNumber) (epochsHalted : Finset EpochNumber) :
    Except ConsensusError Unit :=
  if ¬ 0 < committee.stake ht.author then
    .error (.UnknownAuthority ht.author)
  else
    match ht.block.verify h o committee haltMark epochsHalted with
    | .error e => .error e
    | .ok () =>
      if ¬ ht.block.check_sigma h o then
        .error (.InvalidSignatureShare ht.block.author)
      else
        .ok ()

/-- `aggregator.rs` `Aggregator`: accumulated stake weight, collected votes, and the
set of authors already admitted (`HashSet<PublicKey>`). -/
structure Aggregator where
  weight : Stake
  votes : List ConsensusMessage
  used : Finset PublicKey
  deriving DecidableEq

/-- `Aggregator::new`. -/
def Aggregator.new : Aggregator :=
  { weight := 0, votes := [], used := ∅ }

/-- The threshold selected inside `Aggregator::append` by matching on the vote:
the random-coin threshold for `RandomnessShare`, the quorum threshold otherwise. -/
def appendThreshold (committee : Committee) (vote : ConsensusMessage) : Stake :=
  match vote with
  | .RandomnessShare _ => committee.randomCoinThreshold
  | _ => committee.quorumThreshold

/-- `Aggregator::append` (aggregator.rs lines 26-44): reject a reused author (the
`HashSet::insert` of an existing member leaves the set unchanged), otherwise push the
vote, add the author's stake, and release the collected votes once the weight reaches
the threshold selected from the vote's kind, zeroing the weight. -/
def Aggregator.append (a : Aggregator) (author : PublicKey) (vote : ConsensusMessage)
    (committee : Committee) :
    Except ConsensusError (Option (List ConsensusMessage)) × Aggregator :=
  if author ∈ a.used then
    (.error (.AuthorityReuseinQC author), { a with used := insert author a.used })
  else
    let a1 : Aggregator :=
      { weight := a.weight + committee.stake author,
        votes := a.votes ++ [vote],
        used := insert author a.used }
    if appendThreshold committee vote ≤ a1.weight then
      (.ok (some a1.votes), { a1 with weight := 0 })
    else
      (.ok none, a1)

/-- `Aggregator::ready_for_random_coin`. -/
def Aggregator.readyForRandomCoin (a : Aggregator) (committee : Committee) : Bool :=
  a.weight == committee.randomCoinThreshold

/-- The halt bookkeeping of `Core::cleanup_epoch` (core.rs lines 976-981): insert the
committed epoch into `epochs_halted`, then increment `halt_mark` once if
`halt_mark + 1` can be removed from the set. -/
def cleanupHalt (haltMark : EpochNumber) (epochsHalted : Finset EpochNumber)
    (epoch : EpochNumber) : EpochNumber × Finset EpochNumber :=
  if haltMark + 1 ∈ insert epoch epochsHalted then
    (haltMark + 1, (insert epoch epochsHalted).erase (haltMark + 1))
  else
    (haltMark, insert epoch epochsHalted)

/-- The leader derivation of `Core::handle_randommess_share` (core.rs lines 549-555):
index = big-endian value of the first eight bytes of the combined threshold
signature, modulo the committee size, into the sorted key list. -/
def coreElectedLeader (committee : Committee) (sig : Bytes) : PublicKey :=
  (committee.sortedKeys).getD (beBytes8ToNat sig % committee.size) 0

/-- The `RandomCoin` the core assembles after combining a released quorum of
randomness shares (core.rs lines 561-567). -/
def assembledRandomCoin (name : PublicKey) (epoch : EpochNumber) (view : ViewNumber)
    (sig : Bytes) (committee : Committee) : RandomCoin :=
  { author := name, epoch := epoch, view := view,
    leader := coreElectedLeader committee sig, threshold_sig := sig }

/-! Concrete instances used by counterexamples and witnesses. -/

/-- A committee of four unit-stake authorities: total stake 4, quorum threshold 3,
random-coin threshold 2. -/
def unitCommittee4 : Committee := ⟨[(1, 1), (2, 1), (3, 1), (4, 1)]⟩

/-- A committee with the single unit-stake authority 5. -/
def unitCommittee1 : Committee := ⟨[(5, 1)]⟩

/-- A randomness-share vote by author `i` for epoch 1, view 1. -/
def shareVote (i : Nat) : ConsensusMessage := .RandomnessShare ⟨1, 1, i, 0⟩

/-- An echo vote for epoch 1, phase 1. -/
def echoVote (i : Nat) : ConsensusMessage := .Echo ⟨0, 1, .Phase1, 1, i, 0⟩

/-- A crypto oracle accepting every signature, share and threshold signature; used to
instantiate counterexamples whose point is independent of cryptography. -/
def oracleTrue : CryptoOracle := ⟨fun _ _ _ => true, fun _ _ _ => true, fun _ _ => true⟩

/-- A trivial hash instantiation for counterexamples. -/
def hashZero : HashFun := fun _ => 0

/-! Helper lemmas shared across claims. -/

lemma not_epochLive_of {e mark : EpochNumber} {halted : Finset EpochNumber}
    (h : e ≤ mark ∨ e ∈ halted) : ¬ epochLive e mark halted := by
  unfold epochLive
  rintro ⟨h1, h2⟩
  rcases h with h | h
  · exact absurd h1 (Nat.not_lt.mpr h)
  · exact h2 h

lemma epochLive_of {e mark : EpochNumber} {halted : Finset EpochNumber}
    (h1 : mark < e) (h2 : e ∉ halted) : epochLive e mark halted := ⟨h1, h2⟩

lemma presenceByte_congr {p q : Option Bytes} (h : p.isSome = q.isSome) :
    presenceByte p = presenceByte q := by
  cases p <;> cases q <;> simp_all [presenceByte, Option.isSome]

/-! ### C1 -/

/-- C1: the claim that any aggregator releases at most one bundle, with appends after
a release returning none, fails on `Aggregator::append`: collecting randomness shares
from the four distinct unit-stake authorities of `unitCommittee4`, the aggregator
releases a bundle at the second append (weight 2 reaches the random-coin threshold 2,
weight zeroed) and then releases a second bundle at the fourth append (weight reaches
2 again).  Zeroing the weight is not sufficient at the random-coin threshold, contrary
to the code's own comment that it ensures the quorum certificate is made only once. -/
theorem aggregator_releases_twice_at_coin_threshold :
    (((Aggregator.new.append 1 (shareVote 1) unitCommittee4).2.append 2 (shareVote 2)
        unitCommittee4).1 = .ok (some [shareVote 1, shareVote 2])) ∧
    (((((Aggregator.new.append 1 (shareVote 1) unitCommittee4).2.append 2 (shareVote 2)
            unitCommittee4).2.append 3 (shareVote 3) unitCommittee4).2.append 4
        (shareVote 4) unitCommittee4).1 =
      .ok (some [shareVote 1, shareVote 2, shareVote 3, shareVote 4])) := by
  decide

/-! ### C2 -/

/-- C2 counterexample: with `halt_mark = 1` and `epochs_halted = {3}`, the commit-path
cleanup for epoch 2 yields `halt_mark = 2` and `epochs_halted = {3}` (not
`halt_mark = 3` with an empty set as the claim demands), and `halt_mark + 1` is still
a member of `epochs_halted` after cleanup completes. -/
theorem cleanup_no_cascade_counterexample :
    cleanupHalt 1 {3} 2 = (2, {3}) ∧
    (cleanupHalt 1 {3} 2).1 + 1 ∈ (cleanupHalt 1 {3} 2).2 := by
  decide

/-- C2 (amended): the commit-path cleanup for epoch `e` adds `e` to `epochs_halted`
and advances `halt_mark` by at most one step: it increments exactly when
`halt_mark + 1` is then in the set, removing that element; there is no cascading, so
`halt_mark + 1` may remain a member afterwards.  The set of non-live epochs (at or
below the mark, or in the halted set) is exactly the old one plus `e`. -/
theorem cleanup_single_step_advance (haltMark : EpochNumber)
    (halted : Finset EpochNumber) (e : EpochNumber) :
    ((cleanupHalt haltMark halted e).1 = haltMark ∨
      (cleanupHalt haltMark halted e).1 = haltMark + 1) ∧
    ((cleanupHalt haltMark halted e).1 = haltMark + 1 ↔
      haltMark + 1 ∈ insert e halted) ∧
    (∀ k, (k ≤ (cleanupHalt haltMark halted e).1 ∨
        k ∈ (cleanupHalt haltMark halted e).2) ↔
      (k ≤ haltMark ∨ k ∈ insert e halted)) := by
  unfold cleanupHalt
  by_cases hmem : haltMark + 1 ∈ insert e halted
  · rw [if_pos hmem]
    dsimp only
    refine ⟨Or.inr rfl, by simp [hmem], fun k => ?_⟩
    constructor
    · rintro (hk | hk)
      · by_cases hke : k = haltMark + 1
        · exact Or.inr (hke ▸ hmem)
        · exact Or.inl (Nat.lt_succ_iff.mp (Nat.lt_of_le_of_ne hk hke))
      · exact Or.inr (Finset.mem_of_mem_erase hk)
    · rintro (hk | hk)
      · exact Or.inl (Nat.le_succ_of_le hk)
      · by_cases hke : k = haltMark + 1
        · exact Or.inl (le_of_eq hke)
        · exact Or.inr (Finset.mem_erase.mpr ⟨hke, hk⟩)
  · rw [if_neg hmem]
    dsimp only
    refine ⟨Or.inl rfl, ?_, fun k => Iff.rfl⟩
    simp only [hmem, iff_false]
    exact Nat.ne_of_lt (Nat.lt_succ_self _)

/-- C2 witness: the amended single-step theorem instantiated at
`halt_mark = 1`, `epochs_halted = {3}`, epoch 2. -/
theorem cleanup_single_step_advance_witness :
    ((cleanupHalt 1 {3} 2).1 = 1 ∨ (cleanupHalt 1 {3} 2).1 = 1 + 1) ∧
    ((cleanupHalt 1 {3} 2).1 = 1 + 1 ↔ 1 + 1 ∈ insert 2 ({3} : Finset Nat)) :=
  ⟨(cleanup_single_step_advance 1 {3} 2).1, (cleanup_single_step_advance 1 {3} 2).2.1⟩

/-! ### C3 -/

/-- C3: leader determinism.  A `RandomCoin` passes verification only if its leader
field equals the sorted committee key at index given by the first eight big-endian
bytes of the threshold signature modulo the committee size; when the epoch is live
and the threshold signature verifies but the leader differs, verification fails with
`RandomCoinWithWrongLeader`; and the coin the core assembles from a released quorum
of randomness shares derives its leader by exactly the same formula. -/
theorem random_coin_leader_determinism (h : HashFun) (o : CryptoOracle)
    (c : Committee) (mark : EpochNumber) (halted : Finset EpochNumber) :
    (∀ rc : RandomCoin, rc.verify h o c mark halted = .ok () →
      rc.leader = coinLeaderOfSig c rc.threshold_sig) ∧
    (∀ rc : RandomCoin, epochLive rc.epoch mark halted →
      o.thVerify rc.threshold_sig
        (h (leBytes8 rc.epoch ++ leBytes8 rc.view ++ strBytes "RANDOMNESS_SHARE")) =
        true →
      coinLeaderOfSig c rc.threshold_sig ≠ rc.leader →
      rc.verify h o c mark halted = .error .RandomCoinWithWrongLeader) ∧
    (∀ (name : PublicKey) (epoch : EpochNumber) (view : ViewNumber) (sig : Bytes),
      (assembledRandomCoin name epoch view sig c).leader = coinLeaderOfSig c sig) := by
  refine ⟨?_, ?_, ?_⟩
  · intro rc hok
    unfold RandomCoin.verify at hok
    split_ifs at hok with h1 h2 h3
    all_goals simp_all
  · intro rc hlive hth hne
    have hth2 : o.thVerify rc.threshold_sig
        (h (leBytes8 rc.epoch ++ (leBytes8 rc.view ++ strBytes "RANDOMNESS_SHARE"))) =
        true := by
      simpa using hth
    simp [RandomCoin.verify, hlive, hth2, hne]
  · intro name epoch view sig
    rfl

/-- C3 witness: the determinism theorem applied to a concrete verified coin over the
single-authority committee, and to a concrete assembled coin. -/
theorem random_coin_leader_determinism_witness :
    (⟨9, 1, 1, 5, List.replicate 8 0⟩ : RandomCoin).leader =
      coinLeaderOfSig unitCommittee1 (List.replicate 8 0) ∧
    (assembledRandomCoin 5 1 1 (List.replicate 8 0) unitCommittee1).leader =
      coinLeaderOfSig unitCommittee1 (List.replicate 8 0) :=
  ⟨(random_coin_leader_determinism hashZero oracleTrue unitCommittee1 0 ∅).1
      ⟨9, 1, 1, 5, List.replicate 8 0⟩ (by decide),
    (random_coin_leader_determinism hashZero oracleTrue unitCommittee1 0 ∅).2.2
      5 1 1 (List.replicate 8 0)⟩

/-! Case-analysis lemmas on the verifiers, shared by the epoch-liveness and
unknown-authority claims. -/

lemma block_verify_halted (h : HashFun) (o : CryptoOracle) (c : Committee)
    (mark : EpochNumber) (halted : Finset EpochNumber) (b : Block)
    (hh : b.epoch ≤ mark ∨ b.epoch ∈ halted) :
    b.verify h o c mark halted = .error (.MessageWithHaltedEpoch b.epoch (mark + 1)) := by
  unfold Block.verify
  rw [if_pos (not_epochLive_of hh)]

lemma block_verify_live_not_halted_error (h : HashFun) (o : CryptoOracle)
    (c : Committee) (mark : EpochNumber) (halted : Finset EpochNumber) (b : Block)
    (hlive : epochLive b.epoch mark halted) (x y : EpochNumber) :
    b.verify h o c mark halted ≠ .error (.MessageWithHaltedEpoch x y) := by
  unfold Block.verify
  rw [if_neg (not_not.mpr hlive)]
  split_ifs
  all_goals simp

lemma cv_verify_halted (h : HashFun) (o : CryptoOracle) (c : Committee)
    (mark : EpochNumber) (halted : Finset EpochNumber) (cv : CommitVector)
    (hh : cv.epoch ≤ mark ∨ cv.epoch ∈ halted) :
    cv.verify h o c mark halted = .error (.MessageWithHaltedEpoch cv.epoch (mark + 1)) := by
  unfold CommitVector.verify
  rw [if_pos (not_epochLive_of hh)]

lemma cv_verify_live_not_halted_error (h : HashFun) (o : CryptoOracle)
    (c : Committee) (mark : EpochNumber) (halted : Finset EpochNumber)
    (cv : CommitVector) (hlive : epochLive cv.epoch mark halted) (x y : EpochNumber) :
    cv.verify h o c mark halted ≠ .error (.MessageWithHaltedEpoch x y) := by
  unfold CommitVector.verify
  rw [if_neg (not_not.mpr hlive)]
  split_ifs
  all_goals simp

lemma echo_verify_halted (o : CryptoOracle) (c : Committee) (da : PublicKey)
    (mark : EpochNumber) (halted : Finset EpochNumber) (e : Echo)
    (hh : e.epoch ≤ mark ∨ e.epoch ∈ halted) :
    e.verify o c da mark halted = .error (.MessageWithHaltedEpoch e.epoch (mark + 1)) := by
  unfold Echo.verify
  rw [if_pos (not_epochLive_of hh)]

lemma echo_verify_live_not_halted_error (o : CryptoOracle) (c : Committee)
    (da : PublicKey) (mark : EpochNumber) (halted : Finset EpochNumber) (e : Echo)
    (hlive : epochLive e.epoch mark halted) (x y : EpochNumber) :
    e.verify o c da mark halted ≠ .error (.MessageWithHaltedEpoch x y) := by
  unfold Echo.verify
  rw [if_neg (not_not.mpr hlive)]
  split_ifs
  all_goals simp

lemma share_verify_halted (h : HashFun) (o : CryptoOracle) (c : Committee)
    (mark : EpochNumber) (halted : Finset EpochNumber) (s : RandomnessShare)
    (hh : s.epoch ≤ mark ∨ s.epoch ∈ halted) :
    s.verify h o c mark halted = .error (.MessageWithHaltedEpoch s.epoch (mark + 1)) := by
  unfold RandomnessShare.verify
  rw [if_pos (not_epochLive_of hh)]

lemma share_verify_live_not_halted_error (h : HashFun) (o : CryptoOracle)
    (c : Committee) (mark : EpochNumber) (halted : Finset EpochNumber)
    (s : RandomnessShare) (hlive : epochLive s.epoch mark halted) (x y : EpochNumber) :
    s.verify h o c mark halted ≠ .error (.MessageWithHaltedEpoch x y) := by
  unfold RandomnessShare.verify
  rw [if_neg (not_not.mpr hlive)]
  split_ifs
  all_goals simp

lemma coin_verify_halted (h : HashFun) (o : CryptoOracle) (c : Committee)
    (mark : EpochNumber) (halted : Finset EpochNumber) (rc : RandomCoin)
    (hh : rc.epoch ≤ mark ∨ rc.epoch ∈ halted) :
    rc.verify h o c mark halted = .error (.MessageWithHaltedEpoch rc.epoch (mark + 1)) := by
  unfold RandomCoin.verify
  rw [if_pos (not_epochLive_of hh)]

lemma coin_verify_live_not_halted_error (h : HashFun) (o : CryptoOracle)
    (c : Committee) (mark : EpochNumber) (halted : Finset EpochNumber)
    (rc : RandomCoin) (hlive : epochLive rc.epoch mark halted) (x y : EpochNumber) :
    rc.verify h o c mark halted ≠ .error (.MessageWithHaltedEpoch x y) := by
  unfold RandomCoin.verify
  rw [if_neg (not_not.mpr hlive)]
  split_ifs
  all_goals simp

lemma done_verify_halted (h : HashFun) (o : CryptoOracle) (c : Committee)
    (mark : EpochNumber) (halted : Finset EpochNumber) (d : Done)
    (hstake : 0 < c.stake d.author) (hh : d.coin.epoch ≤ mark ∨ d.coin.epoch ∈ halted) :
    d.verify h o c mark halted =
      .error (.MessageWithHaltedEpoch d.coin.epoch (mark + 1)) := by
  unfold Done.verify
  rw [if_neg (not_not.mpr hstake)]
  exact coin_verify_halted h o c mark halted d.coin hh

lemma done_verify_live_not_halted_error (h : HashFun) (o : CryptoOracle)
    (c : Committee) (mark : EpochNumber) (halted : Finset EpochNumber) (d : Done)
    (hlive : epochLive d.coin.epoch mark halted) (x y : EpochNumber) :
    d.verify h o c mark halted ≠ .error (.MessageWithHaltedEpoch x y) := by
  unfold Done.verify
  by_cases hstake : 0 < c.stake d.author
  · rw [if_neg (not_not.mpr hstake)]
    exact coin_verify_live_not_halted_error h o c mark halted d.coin hlive x y
  · rw [if_pos hstake]
    simp

lemma halt_verify_halted (h : HashFun) (o : CryptoOracle) (c : Committee)
    (mark : EpochNumber) (halted : Finset EpochNumber) (ht : Halt)
    (hstake : 0 < c.stake ht.author)
    (hh : ht.block.epoch ≤ mark ∨ ht.block.epoch ∈ halted) :
    ht.verify h o c mark halted =
      .error (.MessageWithHaltedEpoch ht.block.epoch (mark + 1)) := by
  unfold Halt.verify
  rw [if_neg (not_not.mpr hstake), block_verify_halted h o c mark halted ht.block hh]

lemma halt_verify_live_not_halted_error (h : HashFun) (o : CryptoOracle)
    (c : Committee) (mark : EpochNumber) (halted : Finset EpochNumber) (ht : Halt)
    (hlive : epochLive ht.block.epoch mark halted) (x y : EpochNumber) :
    ht.verify h o c mark halted ≠ .error (.MessageWithHaltedEpoch x y) := by
  unfold Halt.verify
  by_cases hstake : 0 < c.stake ht.author
  · rw [if_neg (not_not.mpr hstake)]
    rcases hEq : ht.block.verify h o c mark halted with e | u
    · dsimp only
      exact hEq ▸ block_verify_live_not_halted_error h o c mark halted ht.block hlive x y
    · cases u
      dsimp only
      split_ifs
      all_goals simp
  · rw [if_pos hstake]
    simp

/-! ### C4 -/

/-- C4 counterexample: a `Done` whose author has zero stake and whose coin's epoch is
halted fails with `UnknownAuthority`, not `MessageWithHaltedEpoch`, because
`Done::verify` checks the author's stake before the epoch-liveness check. -/
theorem epoch_liveness_error_counterexample :
    Done.verify ⟨9, ⟨9, 1, 1, 5, List.replicate 8 0⟩, none⟩ hashZero oracleTrue
      unitCommittee1 1 ∅ = .error (.UnknownAuthority 9) ∧
    (⟨9, ⟨9, 1, 1, 5, List.replicate 8 0⟩, none⟩ : Done).coin.epoch ≤ 1 := by
  decide

/-- C4 (amended): for every inbound message kind the verifier rejects a message whose
relevant epoch is at or below `halt_mark` or in `epochs_halted` — with error
`MessageWithHaltedEpoch` directly for Block, CommitVector, Echo, RandomnessShare and
RandomCoin, and for Done and Halt (whose author-stake check runs first) whenever the
author has positive stake; and whenever the epoch is within the liveness window the
verifier never returns `MessageWithHaltedEpoch` (for Done the epoch is the embedded
coin's, for Halt the inner block's). -/
theorem epoch_liveness_window (h : HashFun) (o : CryptoOracle) (c : Committee)
    (mark : EpochNumber) (halted : Finset EpochNumber) :
    (∀ b : Block, b.epoch ≤ mark ∨ b.epoch ∈ halted →
      b.verify h o c mark halted = .error (.MessageWithHaltedEpoch b.epoch (mark + 1))) ∧
    (∀ cv : CommitVector, cv.epoch ≤ mark ∨ cv.epoch ∈ halted →
      cv.verify h o c mark halted =
        .error (.MessageWithHaltedEpoch cv.epoch (mark + 1))) ∧
    (∀ (e : Echo) (da : PublicKey), e.epoch ≤ mark ∨ e.epoch ∈ halted →
      e.verify o c da mark halted = .error (.MessageWithHaltedEpoch e.epoch (mark + 1))) ∧
    (∀ s : RandomnessShare, s.epoch ≤ mark ∨ s.epoch ∈ halted →
      s.verify h o c mark halted = .error (.MessageWithHaltedEpoch s.epoch (mark + 1))) ∧
    (∀ rc : RandomCoin, rc.epoch ≤ mark ∨ rc.epoch ∈ halted →
      rc.verify h o c mark halted =
        .error (.MessageWithHaltedEpoch rc.epoch (mark + 1))) ∧
    (∀ d : Done, 0 < c.stake d.author → d.coin.epoch ≤ mark ∨ d.coin.epoch ∈ halted →
      d.verify h o c mark halted =
        .error (.MessageWithHaltedEpoch d.coin.epoch (mark + 1))) ∧
    (∀ ht : Halt, 0 < c.stake ht.author →
      ht.block.epoch ≤ mark ∨ ht.block.epoch ∈ halted →
      ht.verify h o c mark halted =
        .error (.MessageWithHaltedEpoch ht.block.epoch (mark + 1))) ∧
    (∀ b : Block, epochLive b.epoch mark halted → ∀ x y,
      b.verify h o c mark halted ≠ .error (.MessageWithHaltedEpoch x y)) ∧
    (∀ cv : CommitVector, epochLive cv.epoch mark halted → ∀ x y,
      cv.verify h o c mark halted ≠ .error (.MessageWithHaltedEpoch x y)) ∧
    (∀ (e : Echo) (da : PublicKey), epochLive e.epoch mark halted → ∀ x y,
      e.verify o c da mark halted ≠ .error (.MessageWithHaltedEpoch x y)) ∧
    (∀ s : RandomnessShare, epochLive s.epoch mark halted → ∀ x y,
      s.verify h o c mark halted ≠ .error (.MessageWithHaltedEpoch x y)) ∧
    (∀ rc : RandomCoin, epochLive rc.epoch mark halted → ∀ x y,
      rc.verify h o c mark halted ≠ .error (.MessageWithHaltedEpoch x y)) ∧
    (∀ d : Done, epochLive d.coin.epoch mark halted → ∀ x y,
      d.verify h o c mark halted ≠ .error (.MessageWithHaltedEpoch x y)) ∧
    (∀ ht : Halt, epochLive ht.block.epoch mark halted → ∀ x y,
      ht.verify h o c mark halted ≠ .error (.MessageWithHaltedEpoch x y)) := by
  refine ⟨fun b hh => block_verify_halted h o c mark halted b hh,
    fun cv hh => cv_verify_halted h o c mark halted cv hh,
    fun e da hh => echo_verify_halted o c da mark halted e hh,
    fun s hh => share_verify_halted h o c mark halted s hh,
    fun rc hh => coin_verify_halted h o c mark halted rc hh,
    fun d hs hh => done_verify_halted h o c mark halted d hs hh,
    fun ht hs hh => halt_verify_halted h o c mark halted ht hs hh,
    fun b hl x y => block_verify_live_not_halted_error h o c mark halted b hl x y,
    fun cv hl x y => cv_verify_live_not_halted_error h o c mark halted cv hl x y,
    fun e da hl x y => echo_verify_live_not_halted_error o c da mark halted e hl x y,
    fun s hl x y => share_verify_live_not_halted_error h o c mark halted s hl x y,
    fun rc hl x y => coin_verify_live_not_halted_error h o c mark halted rc hl x y,
    fun d hl x y => done_verify_live_not_halted_error h o c mark halted d hl x y,
    fun ht hl x y => halt_verify_live_not_halted_error h o c mark halted ht hl x y⟩

/-- C4 witness: the amended liveness-window theorem applied at concrete messages over
the single-authority committee with `halt_mark = 1`. -/
theorem epoch_liveness_window_witness :
    Block.verify ⟨[], 5, 0, 1, none⟩ hashZero oracleTrue unitCommittee1 1 ∅ =
      .error (.MessageWithHaltedEpoch 1 2) ∧
    Done.verify ⟨5, ⟨5, 1, 1, 5, List.replicate 8 0⟩, none⟩ hashZero oracleTrue
      unitCommittee1 1 ∅ = .error (.MessageWithHaltedEpoch 1 2) ∧
    Halt.verify ⟨⟨[], 5, 0, 1, none⟩, 5⟩ hashZero oracleTrue unitCommittee1 1 ∅ =
      .error (.MessageWithHaltedEpoch 1 2) := by
  obtain ⟨hb, _, _, _, _, hd, hht, _⟩ :=
    epoch_liveness_window hashZero oracleTrue unitCommittee1 1 ∅
  exact ⟨hb _ (by decide), hd _ (by decide) (by decide), hht _ (by decide) (by decide)⟩

/-! ### C5 -/

/-- C5 counterexample: `RandomCoin::verify` makes no author-stake check, so a coin
whose author has zero stake in the committee passes verification. -/
theorem unknown_authority_random_coin_counterexample :
    RandomCoin.verify ⟨9, 1, 1, 5, List.replicate 8 0⟩ hashZero oracleTrue
      unitCommittee1 0 ∅ = .ok () ∧
    unitCommittee1.stake 9 = 0 := by
  decide

/-- C5 (amended): Block, CommitVector, Echo, RandomnessShare, Done and Halt
verification fails with `UnknownAuthority` when the message's author has zero stake
(for Block, CommitVector and RandomnessShare once the epoch is live, for Echo once
additionally the digest author matches, for Done and Halt unconditionally since the
stake check runs first); `RandomCoin::verify` performs no author-stake check. -/
theorem unknown_authority_rejection (h : HashFun) (o : CryptoOracle) (c : Committee)
    (mark : EpochNumber) (halted : Finset EpochNumber) :
    (∀ b : Block, epochLive b.epoch mark halted → c.stake b.author = 0 →
      b.verify h o c mark halted = .error (.UnknownAuthority b.author)) ∧
    (∀ cv : CommitVector, epochLive cv.epoch mark halted → c.stake cv.author = 0 →
      cv.verify h o c mark halted = .error (.UnknownAuthority cv.author)) ∧
    (∀ (e : Echo) (da : PublicKey), epochLive e.epoch mark halted →
      e.digest_author = da → c.stake e.author = 0 →
      e.verify o c da mark halted = .error (.UnknownAuthority e.author)) ∧
    (∀ s : RandomnessShare, epochLive s.epoch mark halted → c.stake s.author = 0 →
      s.verify h o c mark halted = .error (.UnknownAuthority s.author)) ∧
    (∀ d : Done, c.stake d.author = 0 →
      d.verify h o c mark halted = .error (.UnknownAuthority d.author)) ∧
    (∀ ht : Halt, c.stake ht.author = 0 →
      ht.verify h o c mark halted = .error (.UnknownAuthority ht.author)) := by
  refine ⟨?_, ?_, ?_, ?_, ?_, ?_⟩
  · intro b hl hs
    unfold Block.verify
    rw [if_neg (not_not.mpr hl), if_pos (by simp [hs])]
  · intro cv hl hs
    unfold CommitVector.verify
    rw [if_neg (not_not.mpr hl), if_pos (by simp [hs])]
  · intro e da hl hda hs
    unfold Echo.verify
    rw [if_neg (not_not.mpr hl), if_neg (not_not.mpr hda), if_pos (by simp [hs])]
  · intro s hl hs
    unfold RandomnessShare.verify
    rw [if_neg (not_not.mpr hl), if_pos (by simp [hs])]
  · intro d hs
    unfold Done.verify
    rw [if_pos (by simp [hs])]
  · intro ht hs
    unfold Halt.verify
    rw [if_pos (by simp [hs])]

/-- C5 witness: the amended unknown-authority theorem applied at concrete messages
authored by key 9, which has zero stake in the single-authority committee. -/
theorem unknown_authority_rejection_witness :
    Block.verify ⟨[], 9, 0, 1, none⟩ hashZero oracleTrue unitCommittee1 0 ∅ =
      .error (.UnknownAuthority 9) ∧
    Done.verify ⟨9, ⟨9, 1, 1, 5, List.replicate 8 0⟩, none⟩ hashZero oracleTrue
      unitCommittee1 0 ∅ = .error (.UnknownAuthority 9) := by
  obtain ⟨hb, _, _, _, hd, _⟩ :=
    unknown_authority_rejection hashZero oracleTrue unitCommittee1 0 ∅
  exact ⟨hb _ (by decide) (by decide), hd _ (by decide)⟩

lemma presenceByte_isSome_inj {p q : Option Bytes}
    (h : presenceByte p = presenceByte q) : p.isSome = q.isSome := by
  cases p <;> cases q <;> simp_all [presenceByte]

/-! ### C6 -/

/-- C6: digest stability.  Two blocks agreeing on author, epoch and payload hash
identical byte sequences (hence have equal digests) whenever their proofs are both
present or both absent — the proof value and the signature never enter the hash —
while flipping the proof-presence bit changes the hashed byte sequence. -/
theorem block_digest_stability (h : HashFun) (b1 b2 : Block)
    (hA : b1.author = b2.author) (hE : b1.epoch = b2.epoch)
    (hP : b1.payload = b2.payload) :
    (b1.proof.isSome = b2.proof.isSome →
      blockDigestInput b1 = blockDigestInput b2 ∧ b1.digest h = b2.digest h) ∧
    (b1.proof.isSome ≠ b2.proof.isSome →
      blockDigestInput b1 ≠ blockDigestInput b2) := by
  constructor
  · intro hpr
    have hin : blockDigestInput b1 = blockDigestInput b2 := by
      unfold blockDigestInput
      rw [hA, hE, hP, presenceByte_congr hpr]
    exact ⟨hin, by unfold Block.digest; rw [hin]⟩
  · intro hpr hcontra
    unfold blockDigestInput at hcontra
    rw [hA, hE, hP] at hcontra
    have h1 := List.append_cancel_left hcontra
    have h4 : presenceByte b1.proof = presenceByte b2.proof := by
      simpa using h1
    exact hpr (presenceByte_isSome_inj h4)

/-- C6 witness: the stability theorem applied to concrete blocks — equal digests for
two blocks differing only in their signatures, and different hashed byte sequences
when only the proof-presence bit differs. -/
theorem block_digest_stability_witness :
    Block.digest hashZero ⟨[7], 1, 0, 2, none⟩ = Block.digest hashZero ⟨[7], 1, 5, 2, none⟩ ∧
    blockDigestInput ⟨[7], 1, 0, 2, none⟩ ≠ blockDigestInput ⟨[7], 1, 0, 2, some []⟩ :=
  ⟨((block_digest_stability hashZero ⟨[7], 1, 0, 2, none⟩ ⟨[7], 1, 5, 2, none⟩
      rfl rfl rfl).1 rfl).2,
    (block_digest_stability hashZero ⟨[7], 1, 0, 2, none⟩ ⟨[7], 1, 0, 2, some []⟩
      rfl rfl rfl).2 (by decide)⟩

/-! ### C7 -/

/-- C7 counterexample: a received list with a duplicated entry is not rejected —
`CommitVector::verify` merely skips duplicates while counting, so the vector
`[1, 1, 2, 3]` (three distinct committee members, quorum 3) passes verification. -/
theorem commit_vector_duplicates_accepted_counterexample :
    CommitVector.verify ⟨1, 1, 0, [1, 1, 2, 3], none⟩ hashZero oracleTrue
      unitCommittee4 0 ∅ = .ok () ∧
    ¬ ([1, 1, 2, 3] : List PublicKey).Nodup := by
  decide

/-- C7 (amended): `CommitVector::verify` succeeds only if the number of distinct
committee authorities in `received` reaches the quorum threshold; given a live epoch,
a positively staked author and a valid signature, it fails with `InvalidCommitVector`
exactly when that count is below the quorum.  Duplicate and non-committee entries are
skipped in the count but do not by themselves cause rejection. -/
theorem commit_vector_quorum_count (h : HashFun) (o : CryptoOracle) (c : Committee)
    (mark : EpochNumber) (halted : Finset EpochNumber) :
    (∀ cv : CommitVector, cv.verify h o c mark halted = .ok () →
      c.quorumThreshold ≤ distinctCommitteeCount c cv.received) ∧
    (∀ cv : CommitVector, epochLive cv.epoch mark halted → 0 < c.stake cv.author →
      o.sigVerify cv.signature (cv.digest h) cv.author = true →
      (distinctCommitteeCount c cv.received < c.quorumThreshold →
        cv.verify h o c mark halted = .error (.InvalidCommitVector cv.author)) ∧
      (c.quorumThreshold ≤ distinctCommitteeCount c cv.received →
        cv.verify h o c mark halted = .ok ())) := by
  constructor
  · intro cv hok
    unfold CommitVector.verify at hok
    split_ifs at hok with h1 h2 h3 h4
    all_goals simp_all
  · intro cv hl hs hsig
    constructor
    · intro hlt
      unfold CommitVector.verify
      rw [if_neg (not_not.mpr hl), if_neg (not_not.mpr hs), if_neg (not_not.mpr hsig),
        if_pos (Nat.not_le.mpr hlt)]
    · intro hge
      unfold CommitVector.verify
      rw [if_neg (not_not.mpr hl), if_neg (not_not.mpr hs), if_neg (not_not.mpr hsig),
        if_neg (not_not.mpr hge)]

/-- C7 witness: the amended quorum-count theorem applied at the duplicated vector
(extracting the count bound from its acceptance) and at a clean three-member vector. -/
theorem commit_vector_quorum_count_witness :
    unitCommittee4.quorumThreshold ≤
      distinctCommitteeCount unitCommittee4 [1, 1, 2, 3] ∧
    CommitVector.verify ⟨1, 1, 0, [1, 2, 3], none⟩ hashZero oracleTrue
      unitCommittee4 0 ∅ = .ok () := by
  obtain ⟨hc1, hc2⟩ := commit_vector_quorum_count hashZero oracleTrue unitCommittee4 0 ∅
  exact ⟨hc1 ⟨1, 1, 0, [1, 1, 2, 3], none⟩ (by decide),
    (hc2 ⟨1, 1, 0, [1, 2, 3], none⟩ (by decide) (by decide) (by decide)).2 (by decide)⟩

/-! ### C8 -/

/-- C8 counterexample: `Aggregator::append` receives no threshold from its caller —
it selects one from the vote's kind.  Two appends of total stake 2 release nothing
when the votes are Echoes (quorum threshold 3) but release a bundle when the votes
are RandomnessShares (random-coin threshold 2), on the same committee. -/
theorem aggregator_threshold_from_kind_counterexample :
    (((Aggregator.new.append 1 (echoVote 1) unitCommittee4).2.append 2 (echoVote 2)
        unitCommittee4).1 = .ok none) ∧
    (((Aggregator.new.append 1 (shareVote 1) unitCommittee4).2.append 2 (shareVote 2)
        unitCommittee4).1 = .ok (some [shareVote 1, shareVote 2])) := by
  decide

/-- C8 (amended): the threshold compared against the accumulated stake is selected by
`Aggregator::append` itself from the appended vote's kind — the random-coin threshold
for a RandomnessShare and the quorum threshold for every other kind; the caller
passes the committee, not a threshold.  With the same weight between the two
thresholds, an Echo append returns no bundle while a RandomnessShare append
releases. -/
theorem aggregator_selects_threshold_by_kind (c : Committee) (a : Aggregator)
    (author : PublicKey) (e : Echo) (s : RandomnessShare)
    (hmem : author ∉ a.used)
    (hcoin : c.randomCoinThreshold ≤ a.weight + c.stake author)
    (hq : a.weight + c.stake author < c.quorumThreshold) :
    (a.append author (.Echo e) c).1 = .ok none ∧
    (a.append author (.RandomnessShare s) c).1 =
      .ok (some (a.votes ++ [.RandomnessShare s])) := by
  constructor
  · have hq2 : ¬ c.quorumThreshold ≤ a.weight + c.stake author := Nat.not_le.mpr hq
    simp [Aggregator.append, hmem, appendThreshold, hq2]
  · simp [Aggregator.append, hmem, appendThreshold, hcoin]

/-- C8 witness: the kind-selected-threshold theorem applied to a concrete aggregator
of weight 1 over the four-authority unit-stake committee. -/
theorem aggregator_selects_threshold_by_kind_witness :
    ((⟨1, [], {7}⟩ : Aggregator).append 1 (.Echo ⟨0, 1, .Phase1, 1, 1, 0⟩)
      unitCommittee4).1 = .ok none ∧
    ((⟨1, [], {7}⟩ : Aggregator).append 1 (.RandomnessShare ⟨1, 1, 1, 0⟩)
      unitCommittee4).1 = .ok (some [.RandomnessShare ⟨1, 1, 1, 0⟩]) :=
  aggregator_selects_threshold_by_kind unitCommittee4 ⟨1, [], {7}⟩ 1
    ⟨0, 1, .Phase1, 1, 1, 0⟩ ⟨1, 1, 1, 0⟩ (by decide) (by decide) (by decide)

/-! ### C9 -/

/-- C9: the CommitVector digest is order-independent in `received` — for two vectors
with equal epoch, author and proof-presence whose received lists are permutations of
each other, the hashed byte sequences coincide (the list is sorted before hashing),
and neither the signature nor the proof value (both left unconstrained here) enters
the digest. -/
theorem cv_digest_received_perm (h : HashFun) (cv1 cv2 : CommitVector)
    (he : cv1.epoch = cv2.epoch) (ha : cv1.author = cv2.author)
    (hp : cv1.proof.isSome = cv2.proof.isSome)
    (hr : cv1.received.Perm cv2.received) :
    cv1.digest h = cv2.digest h := by
  unfold CommitVector.digest cvDigestInput
  have hsort : List.insertionSort (fun a b => a ≤ b) cv1.received
      = List.insertionSort (fun a b => a ≤ b) cv2.received :=
    List.eq_of_perm_of_sorted
      ((List.perm_insertionSort _ _).trans (hr.trans (List.perm_insertionSort _ _).symm))
      (List.sorted_insertionSort _ _) (List.sorted_insertionSort _ _)
  rw [he, ha, presenceByte_congr hp, hsort]

/-- C9 witness: equal digests for two concrete vectors with permuted received lists
and different signatures. -/
theorem cv_digest_received_perm_witness :
    CommitVector.digest hashZero ⟨1, 1, 7, [3, 1, 2], none⟩ =
      CommitVector.digest hashZero ⟨1, 1, 9, [1, 2, 3], none⟩ :=
  cv_digest_received_perm hashZero ⟨1, 1, 7, [3, 1, 2], none⟩
    ⟨1, 1, 9, [1, 2, 3], none⟩ rfl rfl rfl (by decide)

/-! ### C10 -/

/-- C10: append is atomic on failure — when the author is already in the used set,
`Aggregator::append` returns the `AuthorityReuse` error and the aggregator's weight,
votes and used set are exactly as before the call (the `HashSet::insert` performed
before the check is a no-op for an existing member). -/
theorem append_rejects_reuse_unchanged (a : Aggregator) (author : PublicKey)
    (vote : ConsensusMessage) (c : Committee) (hmem : author ∈ a.used) :
    (a.append author vote c).1 = .error (.AuthorityReuseinQC author) ∧
    (a.append author vote c).2 = a := by
  unfold Aggregator.append
  rw [if_pos hmem]
  refine ⟨rfl, ?_⟩
  rcases a with ⟨w, v, u⟩
  simp only at hmem
  simp [Finset.insert_eq_self.mpr hmem]

/-- C10 witness: the atomicity theorem applied to a concrete aggregator whose used
set already contains the appending author. -/
theorem append_rejects_reuse_unchanged_witness :
    ((⟨0, [], {1}⟩ : Aggregator).append 1 (shareVote 1) unitCommittee4).1 =
      .error (.AuthorityReuseinQC 1) ∧
    ((⟨0, [], {1}⟩ : Aggregator).append 1 (shareVote 1) unitCommittee4).2 =
      (⟨0, [], {1}⟩ : Aggregator) :=
  append_rejects_reuse_unchanged ⟨0, [], {1}⟩ 1 (shareVote 1) unitCommittee4 (by decide)

end Pako
